import Mathlib

/-!
Shallow embedding of `src/unicode_cleanup.py`.

The script builds a Python dict literal `unicode_replacements` (48 declared
key/value pairs), then for every entry of one directory whose name ends in
`.yml` or `.yaml` it reads the file, applies
`content = content.replace(key, value)` for the pairs in dict iteration
order, and rewrites the file only when the content changed.

Strings are modelled as `List Char` (Python `str` is a sequence of Unicode
code points; so is `List Char`).  Every key of the dict literal below is
written with `\uXXXX` escapes and reproduces, code point for code point,
the corresponding string literal of the Python source (the source file is
itself mojibake: e.g. the first key is U+00E2 U+0153 U+2026, and the two
lines under the comment `# Smart quotes and dashes` parse as a
triple-quoted string, giving the key `: "\x27",\n    `).
-/

set_option maxRecDepth 100000
set_option maxHeartbeats 2000000

/-- Code points of a string literal, the model of a Python `str` value. -/
def chars (s : String) : List Char := s.toList

/-- Occurrence test, Python `p in s`: `p` occurs contiguously in `s`. -/
def isSubstring (p : List Char) : List Char → Bool
  | [] => p.isEmpty
  | c :: cs => p.isPrefixOf (c :: cs) || isSubstring p cs

/-- One pass of Python `s.replace(p, r)` with explicit fuel: scan left to
right, replace each non-overlapping occurrence of `p` by `r`, and do not
rescan the inserted text.  Fuel bounds the number of scan steps; each step
consumes at least one character, so fuel `s.length` is exact.  (Python
treats an empty `p` specially; no key of this script is empty, and for a
non-empty `p` the guard is vacuous.) -/
def listReplaceAux (p r : List Char) : Nat → List Char → List Char
  | 0, s => s
  | _ + 1, [] => []
  | fuel + 1, c :: cs =>
    if p ≠ [] ∧ p.isPrefixOf (c :: cs) then
      r ++ listReplaceAux p r fuel ((c :: cs).drop p.length)
    else
      c :: listReplaceAux p r fuel cs

/-- Python `s.replace(p, r)`. -/
def listReplace (p r s : List Char) : List Char :=
  listReplaceAux p r s.length s

/-- The 48 key/value pairs of the dict literal of
`src/unicode_cleanup.py`, in source order, keys exactly as they decode from
the (mojibake) source file.  The pair coming from the source lines
under `# Smart quotes and dashes` (two apostrophe-quoted apostrophes) is
pair 43: Python parses those two lines as a triple-quoted-string key
(U+003A U+0020 U+0022 U+0027 U+0022 U+002C U+000A and four spaces) with
value U+0027. -/
def unicode_replacements_literal : List (List Char × List Char) :=
  [ (chars "\u00E2\u0153\u2026", chars "[OK]"),
    (chars "\u00E2\u0152", chars "[ERROR]"),
    (chars "\u00E2\u0161\u00A0", chars "[WARNING]"),
    (chars "\u011F\u0178\u00AF", chars "[TARGET]"),
    (chars "\u011F\u0178\u201C\u0160", chars "[CHART]"),
    (chars "\u011F\u0178\u201C", chars "[PIN]"),
    (chars "\u011F\u0178\u201D\u00A7", chars "[CONFIG]"),
    (chars "\u011F\u0178\u0161\u20AC", chars "[DEPLOY]"),
    (chars "\u011F\u0178\u203A\u00A1\u00EF\u00B8", chars "[SHIELD]"),
    (chars "\u011F\u0178\u201D", chars "[SEARCH]"),
    (chars "\u011F\u0178\u201C\u2039", chars "[LIST]"),
    (chars "\u011F\u0178\u201D", chars "[LOCK]"),
    (chars "\u011F\u0178\u2014\u00EF\u00B8", chars "[BUILD]"),
    (chars "\u011F\u0178\u201C", chars "[NOTE]"),
    (chars "\u011F\u0178\u2030", chars "[SUCCESS]"),
    (chars "\u011F\u0178\u201D\u201E", chars "[REFRESH]"),
    (chars "\u011F\u0178\u2019\u00BE", chars "[SAVE]"),
    (chars "\u011F\u0178\u2014\u201A\u00EF\u00B8", chars "[FILES]"),
    (chars "\u011F\u0178\u201C\u02C6", chars "[GRAPH]"),
    (chars "\u011F\u0178\u0152\u0178", chars "[STAR]"),
    (chars "\u00E2\u00AD", chars "[STAR]"),
    (chars "\u011F\u0178\u2019\u00A1", chars "[IDEA]"),
    (chars "\u011F\u0178\u00A8", chars "[ART]"),
    (chars "\u011F\u0178\u0161\u00A8", chars "[ALERT]"),
    (chars "\u011F\u0178\u201D\u00AC", chars "[TEST]"),
    (chars "\u011F\u0178\u00AA", chars "[EVENT]"),
    (chars "\u011F\u0178\u201C\u00A6", chars "[PACKAGE]"),
    (chars "\u011F\u0178\u00B7\u00EF\u00B8", chars "[TAG]"),
    (chars "\u011F\u0178\u0152", chars "[GLOBAL]"),
    (chars "\u011F\u0178\u201D\u2014", chars "[LINK]"),
    (chars "\u011F\u0178\u201C\u00B1", chars "[MOBILE]"),
    (chars "\u011F\u0178\u2019\u00BB", chars "[COMPUTER]"),
    (chars "\u00E2\u0161\u00A1", chars "[FAST]"),
    (chars "\u011F\u0178\u00AD", chars "[MASK]"),
    (chars "\u011F\u0178\u00B2", chars "[RANDOM]"),
    (chars "\u011F\u0178\u201C\u00A2", chars "[ANNOUNCE]"),
    (chars "\u011F\u0178\u201C\u00A3", chars "[BROADCAST]"),
    (chars "\u011F\u0178", chars "[GIFT]"),
    (chars "\u011F\u0178\u00B3", chars "[GAME]"),
    (chars "\u00E2\u0161\u2122\u00EF\u00B8", chars "[GEAR]"),
    (chars "\u011F\u0178\u2019\u00AB", chars "[SPARK]"),
    (chars "\u011F\u0178\u0152\u02C6", chars "[RAINBOW]"),
    (chars "\u011F\u0178", chars "[FINISH]"),
    (chars ": \u0022\u0027\u0022,\n    ", chars "\u0027"),
    (chars "\u0022", chars "\u0022"),
    (chars "\u0022", chars "\u0022"),
    (chars "\u00E2\u20AC\u201D", chars "--"),
    (chars "\u00E2\u20AC\u201C", chars "-") ]

/-- Insert one pair into an association list the way a Python dict literal
does: a repeated key keeps its first position and takes the new value; a
new key is appended. -/
def dictUpsert (acc : List (List Char × List Char)) (kv : List Char × List Char) :
    List (List Char × List Char) :=
  if acc.any (fun e => e.1 == kv.1) then
    acc.map (fun e => if e.1 == kv.1 then (e.1, kv.2) else e)
  else
    acc ++ [kv]

/-- Build the run-time dict from the pair list of a literal: Python dict
construction semantics (insertion order, first position / last value for a
duplicated key).  The resulting list is the `.items()` iteration order. -/
def pyDict (l : List (List Char × List Char)) : List (List Char × List Char) :=
  l.foldl dictUpsert []

/-- The run-time value of `unicode_replacements` in the script, as the
ordered list its `.items()` loop iterates over. -/
def unicode_replacements : List (List Char × List Char) :=
  pyDict unicode_replacements_literal

/-- Apply a list of (key, value) pairs in order, one `str.replace` pass
each: the body of the loop `for unicode_char, ascii_replacement in
unicode_replacements.items()`. -/
def applyPairs (pairs : List (List Char × List Char)) (content : List Char) :
    List Char :=
  pairs.foldl (fun acc kv => listReplace kv.1 kv.2 acc) content

/-- The whole per-file transformation of the script. -/
def applyReplacements (content : List Char) : List Char :=
  applyPairs unicode_replacements content

/-- Python `s.endswith(suffix)` on code-point lists. -/
def endsWithList (s suffix : List Char) : Bool := suffix.isSuffixOf s

/-- The filter `filename.endswith((".yml", ".yaml"))` of the script
(`endswith` with a tuple is true when some member matches). -/
def hasYamlExt (name : List Char) : Bool :=
  endsWithList name (chars ".yml") || endsWithList name (chars ".yaml")

/-- Outcome of `open(filepath).read()` for one file: either the decoded
text, or a raised error (e.g. the bytes are not valid UTF-8).  The script
wraps no call in a try block, so a raised error propagates. -/
inductive ReadResult where
  | ok (content : List Char)
  | err
deriving DecidableEq

/-- One console line of the script, tagged with the file name it is about:
`Processing {filename}...`, `  - Updated {filename} with ASCII
replacements`, `  - No changes needed for {filename}`. -/
inductive Event where
  | processing (name : List Char)
  | updated (name : List Char)
  | nochange (name : List Char)
deriving DecidableEq

/-- The file name an event line mentions. -/
def eventName : Event → List Char
  | .processing n => n
  | .updated n => n
  | .nochange n => n

/-- Observable outcome of the main loop: the per-file console lines, the
names opened for reading, the `(name, new content)` pairs written back,
and whether an uncaught exception aborted the loop. -/
structure BatchResult where
  events : List Event
  reads : List (List Char)
  writes : List (List Char × List Char)
  aborted : Bool
deriving DecidableEq

/-- The `for filename in os.listdir(workflow_dir)` loop of the script over
a directory listing, each entry paired with what reading it would yield.
A non-matching name is skipped entirely.  A matching name is announced,
then opened: a read/decode error is uncaught, so the loop stops there with
nothing further processed.  Otherwise the content is transformed and, only
when it differs from the original, written back (then `Updated`), else
`No changes needed`. -/
def runBatch : List (List Char × ReadResult) → BatchResult
  | [] => ⟨[], [], [], false⟩
  | (name, r) :: rest =>
    if hasYamlExt name then
      match r with
      | .err => ⟨[.processing name], [name], [], true⟩
      | .ok content =>
        let newContent := applyReplacements content
        let res := runBatch rest
        if newContent ≠ content then
          ⟨.processing name :: .updated name :: res.events,
           name :: res.reads, (name, newContent) :: res.writes, res.aborted⟩
        else
          ⟨.processing name :: .nochange name :: res.events,
           name :: res.reads, res.writes, res.aborted⟩
    else runBatch rest

/-- A replacement pass whose pattern does not occur leaves the text as it
is, whatever the fuel. -/
theorem listReplaceAux_no_occur (p r : List Char) :
    ∀ (fuel : Nat) (s : List Char), isSubstring p s = false →
      listReplaceAux p r fuel s = s := by
  intro fuel
  induction fuel with
  | zero => intro s _; rfl
  | succ n ih =>
    intro s hs
    cases s with
    | nil => rfl
    | cons c cs =>
      simp only [isSubstring, Bool.or_eq_false_iff] at hs
      rw [listReplaceAux, if_neg (by simp [hs.1]), ih cs hs.2]

/-- `str.replace` with an absent pattern is the identity. -/
theorem listReplace_no_occur (p r s : List Char) (h : isSubstring p s = false) :
    listReplace p r s = s :=
  listReplaceAux_no_occur p r s.length s h

/-- Applying a pair list none of whose keys occurs leaves the text as it
is. -/
theorem applyPairs_no_occur (pairs : List (List Char × List Char))
    (content : List Char)
    (h : ∀ kv ∈ pairs, isSubstring kv.1 content = false) :
    applyPairs pairs content = content := by
  induction pairs with
  | nil => rfl
  | cons kv rest ih =>
    simp only [applyPairs, List.foldl_cons]
    rw [listReplace_no_occur kv.1 kv.2 content (h kv (List.mem_cons_self kv rest))]
    exact ih fun e he => h e (List.mem_cons_of_mem kv he)

/-- C1: the claim states that a `.yml` file whose content is exactly
`Deploy status: <U+2705> done` (the correctly encoded check mark) is
rewritten to `Deploy status: [OK] done` and reported changed.  Evaluating
the embedded script refutes this and exhibits the code defect: the key of
the `[OK]` pair in the source is the mis-decoded sequence U+00E2 U+0153
U+2026, not U+2705, so the content is left identical, nothing is written,
and the file is reported with `No changes needed`. -/
theorem c1_checkmark_scenario_eval :
    applyReplacements (chars "Deploy status: \u2705 done") =
      chars "Deploy status: \u2705 done" ∧
    runBatch [(chars "a.yml", ReadResult.ok (chars "Deploy status: \u2705 done"))] =
      ⟨[Event.processing (chars "a.yml"), Event.nochange (chars "a.yml")],
       [chars "a.yml"], [], false⟩ :=
  ⟨by decide, by decide⟩

/-- C2 counterexample: with a directory listing in which `a.yml` fails to
read and `b.yml` follows with readable content, the run stops at `a.yml`:
`b.yml` is never opened, never processed and never mentioned, refuting the
claim that a per-file error leaves the rest of the batch running. -/
theorem c2_continue_counterexample :
    runBatch [(chars "a.yml", ReadResult.err),
        (chars "b.yml", ReadResult.ok (chars "plain"))] =
      ⟨[Event.processing (chars "a.yml")], [chars "a.yml"], [], true⟩ ∧
    chars "b.yml" ∉ (runBatch [(chars "a.yml", ReadResult.err),
        (chars "b.yml", ReadResult.ok (chars "plain"))]).reads :=
  ⟨by decide, by decide⟩

/-- C2 amended: the script catches nothing, so a read or decode error on a
matching file aborts the whole run at that file: its `Processing` line is
the last output, no result line is printed for it, and no later entry of
the listing is read, processed or written. -/
theorem c2_read_error_aborts_batch (name : List Char)
    (rest : List (List Char × ReadResult)) (h : hasYamlExt name = true) :
    runBatch ((name, ReadResult.err) :: rest) =
      ⟨[Event.processing name], [name], [], true⟩ := by
  simp [runBatch, h]

/-- C2 witness: the amended statement at a concrete two-file listing. -/
theorem c2_read_error_aborts_batch_witness :
    runBatch [(chars "a.yml", ReadResult.err),
        (chars "b.yaml", ReadResult.ok (chars "plain"))] =
      ⟨[Event.processing (chars "a.yml")], [chars "a.yml"], [], true⟩ :=
  c2_read_error_aborts_batch (chars "a.yml")
    [(chars "b.yaml", ReadResult.ok (chars "plain"))] (by decide)

/-- C3: the claim states that no key of the table is a substring of
another key and that the pairs therefore commute on every input.
Evaluating the embedded table refutes both parts: the key U+011F U+0178
(value `[FINISH]`) is a prefix of the key U+011F U+0178 U+00AF (value
`[TARGET]`), and on the content U+011F U+0178 U+201C U+0160 the table
order yields `[CHART]` while the reversed order yields `[FINISH]`
followed by U+201C U+0160. -/
theorem c3_overlap_and_order_eval :
    (chars "\u011F\u0178") ∈ unicode_replacements.map Prod.fst ∧
    (chars "\u011F\u0178\u00AF") ∈ unicode_replacements.map Prod.fst ∧
    isSubstring (chars "\u011F\u0178") (chars "\u011F\u0178\u00AF") = true ∧
    applyPairs unicode_replacements (chars "\u011F\u0178\u201C\u0160") = chars "[CHART]" ∧
    applyPairs unicode_replacements.reverse (chars "\u011F\u0178\u201C\u0160") =
      chars "[FINISH]\u201C\u0160" ∧
    applyPairs unicode_replacements.reverse (chars "\u011F\u0178\u201C\u0160") ≠
      applyPairs unicode_replacements (chars "\u011F\u0178\u201C\u0160") :=
  ⟨by decide, by decide, by decide, by decide, by decide, by decide⟩

/-- C4: the claim states that the declared source keys are pairwise
distinct.  Evaluating the dict literal refutes it: the key U+011F U+0178
U+201C is declared at position 5 (value `[PIN]`) and again at position 13
(value `[NOTE]`), so it is counted twice among the declared keys; the 48
declared pairs collapse to a dict of 44 entries. -/
theorem c4_declared_keys_not_distinct :
    unicode_replacements_literal.getD 5 ([], []) =
      (chars "\u011F\u0178\u201C", chars "[PIN]") ∧
    unicode_replacements_literal.getD 13 ([], []) =
      (chars "\u011F\u0178\u201C", chars "[NOTE]") ∧
    (unicode_replacements_literal.map Prod.fst).count (chars "\u011F\u0178\u201C") = 2 ∧
    unicode_replacements_literal.length = 48 ∧
    unicode_replacements.length = 44 :=
  ⟨by decide, by decide, by decide, by decide, by decide⟩

/-- C5: the claim states the transformation is idempotent on every
content.  Evaluating the embedded script refutes it on the content
U+003A U+0020 U+0022, then key 43, then U+0022 U+002C U+000A and four
spaces, where key 43 is the accidental triple-quoted-string key: the
first application rebuilds exactly key 43, so a second application still
changes the text (to U+0027), and a second run over the rewritten file
reports `Updated` again instead of `No changes needed`. -/
theorem c5_not_idempotent_eval :
    applyReplacements (chars ": \u0022: \u0022\u0027\u0022,\n    \u0022,\n    ") = chars ": \u0022\u0027\u0022,\n    " ∧
    applyReplacements (chars ": \u0022\u0027\u0022,\n    ") = chars "\u0027" ∧
    applyReplacements (applyReplacements (chars ": \u0022: \u0022\u0027\u0022,\n    \u0022,\n    ")) ≠
      applyReplacements (chars ": \u0022: \u0022\u0027\u0022,\n    \u0022,\n    ") ∧
    runBatch [(chars "a.yml", ReadResult.ok (chars ": \u0022\u0027\u0022,\n    "))] =
      ⟨[Event.processing (chars "a.yml"), Event.updated (chars "a.yml")],
       [chars "a.yml"], [(chars "a.yml", chars "\u0027")], false⟩ :=
  ⟨by decide, by decide, by decide, by decide⟩

/-- C6: the claim states that for every declared (source, destination)
pair, a content holding exactly that source becomes exactly that
destination with no source left.  Evaluating the embedded script refutes
it for the pair declared at position 5, (U+011F U+0178 U+201C, `[PIN]`):
the same key is redeclared later with value `[NOTE]`, the dict keeps the
later value, and the content becomes `[NOTE]`, not `[PIN]`. -/
theorem c6_pin_pair_eval :
    unicode_replacements_literal.getD 5 ([], []) =
      (chars "\u011F\u0178\u201C", chars "[PIN]") ∧
    applyReplacements (chars "\u011F\u0178\u201C") = chars "[NOTE]" ∧
    chars "[NOTE]" ≠ chars "[PIN]" :=
  ⟨by decide, by decide, by decide⟩

/-- C7: the claim states that no source key of the table ever occurs in a
transformed content.  Evaluating the embedded script refutes it: the
mangled smart-quote section declares the identity pair mapping U+0022 to
itself, so the one-character content U+0022 is its own transform and the
source key U+0022 still occurs in the output. -/
theorem c7_source_key_survives_eval :
    (chars "\u0022", chars "\u0022") ∈ unicode_replacements ∧
    applyReplacements (chars "\u0022") = chars "\u0022" ∧
    isSubstring (chars "\u0022") (applyReplacements (chars "\u0022")) = true :=
  ⟨by decide, by decide, by decide⟩

/-- C10: the dict literal declares the key U+011F U+0178 U+201C with value
`[PIN]` (position 5) and again with value `[NOTE]` (position 13), and the
key U+011F U+0178 U+201D with value `[SEARCH]` (position 9) and again with
value `[LOCK]` (position 11); the constructed dict keeps the later values,
and no entry of the dict the loop iterates over carries the value `[PIN]`
or `[SEARCH]`, so no occurrence is ever replaced by either. -/
theorem c10_duplicate_keys_last_value_wins :
    unicode_replacements_literal.getD 5 ([], []) =
      (chars "\u011F\u0178\u201C", chars "[PIN]") ∧
    unicode_replacements_literal.getD 13 ([], []) =
      (chars "\u011F\u0178\u201C", chars "[NOTE]") ∧
    unicode_replacements_literal.getD 9 ([], []) =
      (chars "\u011F\u0178\u201D", chars "[SEARCH]") ∧
    unicode_replacements_literal.getD 11 ([], []) =
      (chars "\u011F\u0178\u201D", chars "[LOCK]") ∧
    (chars "\u011F\u0178\u201C", chars "[NOTE]") ∈ unicode_replacements ∧
    (chars "\u011F\u0178\u201D", chars "[LOCK]") ∈ unicode_replacements ∧
    unicode_replacements.filter
      (fun kv => kv.2 == chars "[PIN]" || kv.2 == chars "[SEARCH]") = [] :=
  ⟨by decide, by decide, by decide, by decide, by decide, by decide, by decide⟩

/-- Unfolding: a non-matching entry is skipped. -/
theorem runBatch_cons_skip (n : List Char) (r : ReadResult)
    (rest : List (List Char × ReadResult)) (h : hasYamlExt n = false) :
    runBatch ((n, r) :: rest) = runBatch rest := by
  cases r <;> simp [runBatch, h]

/-- Unfolding: a matching entry that fails to read aborts the run. -/
theorem runBatch_cons_err (n : List Char)
    (rest : List (List Char × ReadResult)) (h : hasYamlExt n = true) :
    runBatch ((n, ReadResult.err) :: rest) =
      ⟨[Event.processing n], [n], [], true⟩ := by
  simp [runBatch, h]

/-- Unfolding: a matching entry whose transform differs is written. -/
theorem runBatch_cons_ok_changed (n content : List Char)
    (rest : List (List Char × ReadResult)) (h : hasYamlExt n = true)
    (hc : applyReplacements content ≠ content) :
    runBatch ((n, ReadResult.ok content) :: rest) =
      ⟨Event.processing n :: Event.updated n :: (runBatch rest).events,
       n :: (runBatch rest).reads,
       (n, applyReplacements content) :: (runBatch rest).writes,
       (runBatch rest).aborted⟩ := by
  simp [runBatch, h, hc]

/-- Unfolding: a matching entry whose transform is identical is not
written. -/
theorem runBatch_cons_ok_unchanged (n content : List Char)
    (rest : List (List Char × ReadResult)) (h : hasYamlExt n = true)
    (hc : applyReplacements content = content) :
    runBatch ((n, ReadResult.ok content) :: rest) =
      ⟨Event.processing n :: Event.nochange n :: (runBatch rest).events,
       n :: (runBatch rest).reads,
       (runBatch rest).writes,
       (runBatch rest).aborted⟩ := by
  simp [runBatch, h, hc]

/-- C8: a file whose content contains no source key of the table is left
identical, is not written, and is reported with `No changes needed`; and,
in any run, every write carries a transformed content that differs from
the content that was read under that name. -/
theorem c8_no_key_means_untouched :
    (∀ (name content : List Char), hasYamlExt name = true →
        (∀ kv ∈ unicode_replacements, isSubstring kv.1 content = false) →
        runBatch [(name, ReadResult.ok content)] =
          ⟨[Event.processing name, Event.nochange name], [name], [], false⟩) ∧
    (∀ (l : List (List Char × ReadResult)) (name c : List Char),
        (name, c) ∈ (runBatch l).writes →
        ∃ orig, (name, ReadResult.ok orig) ∈ l ∧
          c = applyReplacements orig ∧ c ≠ orig) := by
  constructor
  · intro name content hext hno
    have hfix : applyReplacements content = content :=
      applyPairs_no_occur unicode_replacements content hno
    rw [runBatch_cons_ok_unchanged name content [] hext hfix]
    rfl
  · intro l
    induction l with
    | nil => intro name c h; simp [runBatch] at h
    | cons e rest ih =>
      obtain ⟨n, r⟩ := e
      intro name c h
      by_cases hext : hasYamlExt n = true
      · cases r with
        | err =>
          rw [runBatch_cons_err n rest hext] at h
          simp at h
        | ok content =>
          by_cases hch : applyReplacements content = content
          · rw [runBatch_cons_ok_unchanged n content rest hext hch] at h
            obtain ⟨orig, h1, h2, h3⟩ := ih name c h
            exact ⟨orig, List.mem_cons_of_mem _ h1, h2, h3⟩
          · rw [runBatch_cons_ok_changed n content rest hext hch] at h
            rcases List.mem_cons.mp h with h0 | h0
            · rw [Prod.mk.injEq] at h0
              obtain ⟨h0a, h0b⟩ := h0
              refine ⟨content, ?_, ?_, ?_⟩
              · rw [h0a]; exact List.mem_cons_self _ _
              · exact h0b
              · rw [h0b]; exact hch
            · obtain ⟨orig, h1, h2, h3⟩ := ih name c h0
              exact ⟨orig, List.mem_cons_of_mem _ h1, h2, h3⟩
      · have hext2 : hasYamlExt n = false := by simpa using hext
        rw [runBatch_cons_skip n r rest hext2] at h
        obtain ⟨orig, h1, h2, h3⟩ := ih name c h
        exact ⟨orig, List.mem_cons_of_mem _ h1, h2, h3⟩

/-- C8 witness: a concrete file with no table key in its content. -/
theorem c8_no_key_means_untouched_witness :
    runBatch [(chars "b.yaml", ReadResult.ok (chars "plain text only"))] =
      ⟨[Event.processing (chars "b.yaml"), Event.nochange (chars "b.yaml")],
       [chars "b.yaml"], [], false⟩ :=
  c8_no_key_means_untouched.1 (chars "b.yaml") (chars "plain text only")
    (by decide) (by decide)

/-- C9: a directory entry whose name does not end in `.yml` or `.yaml` is
never opened for reading, never written, and never named in any console
line of the run. -/
theorem c9_extension_filtering (l : List (List Char × ReadResult))
    (name : List Char) (h : hasYamlExt name = false) :
    name ∉ (runBatch l).reads ∧
    (∀ ev ∈ (runBatch l).events, eventName ev ≠ name) ∧
    (∀ c : List Char, (name, c) ∉ (runBatch l).writes) := by
  induction l with
  | nil =>
    refine ⟨by simp [runBatch], by simp [runBatch], fun c => by simp [runBatch]⟩
  | cons e rest ih =>
    obtain ⟨n, r⟩ := e
    by_cases hext : hasYamlExt n = true
    · have hne : name ≠ n := by
        intro he
        rw [← he, h] at hext
        exact Bool.false_ne_true hext
      cases r with
      | err =>
        rw [runBatch_cons_err n rest hext]
        refine ⟨by simp [hne], ?_, fun c => by simp⟩
        intro ev hev
        simp only [List.mem_singleton] at hev
        subst hev
        exact fun he => hne he.symm
      | ok content =>
        by_cases hch : applyReplacements content = content
        · rw [runBatch_cons_ok_unchanged n content rest hext hch]
          refine ⟨?_, ?_, ?_⟩
          · simp only [List.mem_cons]
            rintro (he | he)
            · exact hne he
            · exact ih.1 he
          · intro ev hev
            simp only [List.mem_cons] at hev
            rcases hev with he | he | he
            · subst he; exact fun hh => hne hh.symm
            · subst he; exact fun hh => hne hh.symm
            · exact ih.2.1 ev he
          · intro c
            exact ih.2.2 c
        · rw [runBatch_cons_ok_changed n content rest hext hch]
          refine ⟨?_, ?_, ?_⟩
          · simp only [List.mem_cons]
            rintro (he | he)
            · exact hne he
            · exact ih.1 he
          · intro ev hev
            simp only [List.mem_cons] at hev
            rcases hev with he | he | he
            · subst he; exact fun hh => hne hh.symm
            · subst he; exact fun hh => hne hh.symm
            · exact ih.2.1 ev he
          · intro c
            simp only [List.mem_cons]
            rintro (he | he)
            · exact hne (congrArg Prod.fst he)
            · exact ih.2.2 c he
    · have hext2 : hasYamlExt n = false := by simpa using hext
      rw [runBatch_cons_skip n r rest hext2]
      exact ih

/-- C9 witness: a `.txt` entry is absent from the names the run reads. -/
theorem c9_extension_filtering_witness :
    chars "c.txt" ∉
      (runBatch [(chars "c.txt", ReadResult.ok (chars "x")),
        (chars "a.yml", ReadResult.ok (chars "y"))]).reads :=
  (c9_extension_filtering
    [(chars "c.txt", ReadResult.ok (chars "x")),
     (chars "a.yml", ReadResult.ok (chars "y"))]
    (chars "c.txt") (by decide)).1
